import Mathlib

/-!
Verification development for the playback-simulator excerpt of the
apl-core-library repository.

The repository excerpt contains the `FakePlayer` class declaration
(`src/unnamed/part_000`): a deterministic, time-driven simulation of a single
media track's playback lifecycle (buffering, playing, looping, seeking,
failing), plus a unit test for the environment-configuration store
(`src/unit/content/unittest_rootconfig.cpp`).

The inline accessors of the header (`getTrackState`, `getPosition`,
`getDuration`, `getState`, `active`, `isEnded`, `isPlaying`, `atStart`) are
translated directly from the source.  The bodies of the control operations
(`play`, `pause`, `rewind`, `finish`, `seek`, `clearRepeat`) and of
`advanceTime` are not part of the excerpt (the header only declares them), so
they are modelled from the specification (spec.md §4.1–§4.3), as is the
`RootConfig` environment store (spec.md §6); each such definition carries a
doc comment saying so.

All times are integer milliseconds (`Int`); the sentinels of the C++ code are
kept: a negative `mRepeatCount` means "repeat forever", a negative
`mFailAfter` means "never fail", a negative `mDuration` means "infinite".
-/

namespace AplFake

/-- Events generated by the FakePlayer as time passes
(enum `FakePlayer::FakeEvent` in the source). -/
inductive FakeEvent where
  | TIME_UPDATE
  | TRACK_READY
  | TRACK_DONE
  | TRACK_FAIL
  | NO_REPORT
deriving DecidableEq, Repr

/-- Internal state of the FakePlayer (enum `FakePlayer::FakeState`). -/
inductive FakeState where
  | IDLE
  | PLAYING
  | DONE
  | FAILED
deriving DecidableEq, Repr

/-- Track states reported to event handlers (enum `TrackState` of the
surrounding engine, used by `FakePlayer::getTrackState`). -/
inductive TrackState where
  | kTrackNotReady
  | kTrackReady
  | kTrackFailed
deriving DecidableEq, Repr

/-- The FakePlayer state: the const track parameters and the mutable fields of
the C++ class, translated field by field from the private section of the
header.  `mInitialDelay` is not a declared field of the header, but the spec
(§4.2) requires `play()` to arm buffering with `initialDelay`, so the model
carries it alongside the other construction-time constants. -/
structure FakePlayer where
  mRequestedDuration : Int  -- requested duration of the track
  mRepeatCount : Int        -- number of times to repeat; -1 = repeat forever
  mFailAfter : Int          -- fail after this many ms of playback; -1 = never
  mStart : Int              -- where we actually start playing from
  mDuration : Int           -- milliseconds to play; -1 = forever
  mInitialDelay : Int       -- initial buffering delay
  mBufferingTime : Int      -- amount of time left for buffering content
  mTrackPosition : Int      -- play-head position (between start and end)
  mCompletedPlays : Int     -- number of times we have played through the track
  mState : FakeState
  mReadyDispatched : Bool
deriving DecidableEq, Repr

namespace FakePlayer

/-- Translated from the source (header, inline): the current track state for
use in event handlers. -/
def getTrackState (p : FakePlayer) : TrackState :=
  if p.mState = FakeState.FAILED then TrackState.kTrackFailed
  else if p.mBufferingTime = 0 then TrackState.kTrackReady
  else TrackState.kTrackNotReady

/-- Translated from the source (header, inline): the current track position. -/
def getPosition (p : FakePlayer) : Int := p.mTrackPosition

/-- Translated from the source (header, inline): the requested duration. -/
def getDuration (p : FakePlayer) : Int := p.mRequestedDuration

/-- Translated from the source (header, inline): the internal state. -/
def getState (p : FakePlayer) : FakeState := p.mState

/-- Translated from the source (header, inline): true if this player has not
finished or failed yet. -/
def active (p : FakePlayer) : Bool :=
  p.mState = FakeState.IDLE ∨ p.mState = FakeState.PLAYING

/-- Translated from the source (header, inline): true if this player is done
playing (DONE or FAILED). -/
def isEnded (p : FakePlayer) : Bool :=
  p.mState = FakeState.DONE ∨ p.mState = FakeState.FAILED

/-- Translated from the source (header, inline): true if currently playing. -/
def isPlaying (p : FakePlayer) : Bool := p.mState = FakeState.PLAYING

/-- Translated from the source (header, inline): true if this player is at the
very start and has not repeated yet. -/
def atStart (p : FakePlayer) : Bool :=
  p.mTrackPosition = p.mStart ∧ p.mCompletedPlays = 0

/-- Modelled from the spec: the factory (§4.1) computes the playable window
`[start, start+duration]` as the intersection of the author-requested
offset/duration with the actual content length; if the requested window lies
outside the actual content the resulting duration is zero and the play head
parks at the length of the video (header special case 1).  Initial state is
`IDLE`, buffering not yet started, play head at `start`, zero completed
loops.  `repeatCount`, `failAfter`, `initialDelay` are copied through. -/
def create (offset requestedDuration repeatCount : Int)
    (actualDuration initialDelay failAfter : Int) : FakePlayer :=
  let s := min (max offset 0) actualDuration
  let e := min (max (offset + requestedDuration) s) actualDuration
  { mRequestedDuration := requestedDuration
    mRepeatCount := repeatCount
    mFailAfter := failAfter
    mStart := s
    mDuration := e - s
    mInitialDelay := initialDelay
    mBufferingTime := 0
    mTrackPosition := s
    mCompletedPlays := 0
    mState := FakeState.IDLE
    mReadyDispatched := false }

/-- Modelled from the spec (§4.2): `play()` is valid only from `Idle`;
it transitions to `Playing` and arms buffering with `initialDelay`.
Returns whether the transition occurred. -/
def play (p : FakePlayer) : Bool × FakePlayer :=
  if p.mState = FakeState.IDLE then
    (true, { p with mState := FakeState.PLAYING, mBufferingTime := p.mInitialDelay })
  else
    (false, p)

/-- Modelled from the spec (§4.2): `pause()` is valid only from `Playing`;
it returns to `Idle` without losing play-head position, buffering remainder,
or loop count.  Returns whether it actually paused. -/
def pause (p : FakePlayer) : Bool × FakePlayer :=
  if p.mState = FakeState.PLAYING then
    (true, { p with mState := FakeState.IDLE })
  else
    (false, p)

/-- Modelled from the spec (§4.2, §7): `rewind()` resets the play head to
`start`, `completedLoops` to zero, clears the buffering remainder and sets the
state to `Idle`, except that a track whose effective playable duration is zero
and whose state is `Done` cannot be rewound (no-op returning false), and that
`Failed` is absorbing (§7: all control operations are no-ops once failed).
Returns whether a rewind actually changed anything, i.e. the play head was not
already at the start with zero completed loops. -/
def rewind (p : FakePlayer) : Bool × FakePlayer :=
  if p.mState = FakeState.FAILED then
    (false, p)
  else if p.mDuration = 0 ∧ p.mState = FakeState.DONE then
    (false, p)
  else
    (¬(p.mTrackPosition = p.mStart ∧ p.mCompletedPlays = 0),
      { p with mTrackPosition := p.mStart
               mCompletedPlays := 0
               mBufferingTime := 0
               mState := FakeState.IDLE })

/-- Modelled from the spec (§4.2): `finish()` forces the terminal `Done` state
unless already `Failed` (failure is absorbing).  If the playable duration is
infinite the play head is reset to `start` when finishing.  Returns whether
the state actually changed to `Done`. -/
def finish (p : FakePlayer) : Bool × FakePlayer :=
  if p.mState = FakeState.FAILED ∨ p.mState = FakeState.DONE then
    (false, p)
  else
    (true, { p with mState := FakeState.DONE
                    mTrackPosition :=
                      if p.mDuration < 0 then p.mStart else p.mTrackPosition })

/-- Modelled from the spec (§4.2): clip a position to `[start, end]` when
`end` is finite; an infinite track only clips below at `start` (the play head
is never before `start`, §3 invariants). -/
def clipPosition (p : FakePlayer) (position : Int) : Int :=
  if p.mDuration < 0 then max p.mStart position
  else min (p.mStart + p.mDuration) (max p.mStart position)

/-- Modelled from the spec (§4.2, §4.3): no further repeats remain when
`completedLoops` has reached a finite `repeatCount`, or this is the final
iteration — per §4.3 repeats remain exactly when `repeatCount` is the
"forever" sentinel or `completedLoops + 1 < repeatCount`, so for a finite
`repeatCount` none remain once `repeatCount ≤ completedLoops + 1`. -/
def noRepeatsRemain (p : FakePlayer) : Prop :=
  0 ≤ p.mRepeatCount ∧ p.mRepeatCount ≤ p.mCompletedPlays + 1

instance (p : FakePlayer) : Decidable p.noRepeatsRemain := by
  unfold noRepeatsRemain; infer_instance

/-- Modelled from the spec (§4.2, §7): `seek(offset)` moves the play head to
`start + offset` clipped to the playable window.  Side effects: (a) if the new
position equals `end` and no further repeats remain, the state becomes `Done`;
(b) if the track was `Done` and the new position is earlier than `end`, the
state reverts to `Idle`.  `Failed` is absorbing, so seeking a failed track is
a no-op.  Returns whether the play head actually moved. -/
def seek (p : FakePlayer) (offset : Int) : Bool × FakePlayer :=
  if p.mState = FakeState.FAILED then
    (false, p)
  else
    let newPos := p.clipPosition (p.mStart + offset)
    let newState :=
      if 0 ≤ p.mDuration ∧ newPos = p.mStart + p.mDuration ∧ p.noRepeatsRemain then
        FakeState.DONE
      else if p.mState = FakeState.DONE ∧
          (if 0 ≤ p.mDuration then newPos < p.mStart + p.mDuration else True) then
        FakeState.IDLE
      else p.mState
    (¬(newPos = p.mTrackPosition),
      { p with mTrackPosition := newPos, mState := newState })

/-- Modelled from the spec (§4.2): `clearRepeat()` is only meaningful when the
state is `Done` with `completedLoops ≥ 1`; it resets `completedLoops` to zero
and the state to `Idle`, play head unchanged.  Returns whether a reset
actually occurred. -/
def clearRepeat (p : FakePlayer) : Bool × FakePlayer :=
  if p.mState = FakeState.DONE ∧ 1 ≤ p.mCompletedPlays then
    (true, { p with mCompletedPlays := 0, mState := FakeState.IDLE })
  else
    (false, p)

/-- Modelled from the spec (§4.3): elapsed playback milliseconds, against
which the `failAfter` threshold is measured: completed loops times the window
length, plus the progress into the current traversal. -/
def elapsedPlayback (p : FakePlayer) : Int :=
  (if 0 ≤ p.mDuration then p.mCompletedPlays * p.mDuration else 0) +
    (p.mTrackPosition - p.mStart)

/-- Modelled from the spec (§4.3, §9): the playback phase for a finite,
positive window, written as the bounded loop the design notes prescribe.  Per
iteration the next reportable event within the remaining budget is computed:
failure first (`failAfter` reached: tie-break in favour of failure, §4.3),
then an end-of-window crossing (looping transparently when repeats remain, no
event for an internal loop boundary), otherwise the budget is exhausted and a
`TIME_UPDATE` is produced.  `fuel` bounds the iterations; it is chosen large
enough that it never runs out for a nonnegative budget. -/
def playLoop : Nat → FakePlayer → Int → Int → FakeEvent × Int × FakePlayer
  | 0, p, _, consumed => (FakeEvent.NO_REPORT, consumed, p)
  | fuel + 1, p, t, consumed =>
    let timeToFail := p.mFailAfter - p.elapsedPlayback
    let timeToEnd := p.mStart + p.mDuration - p.mTrackPosition
    if 0 ≤ p.mFailAfter ∧ timeToFail ≤ t ∧ timeToFail ≤ timeToEnd then
      (FakeEvent.TRACK_FAIL, consumed + timeToFail,
        { p with mState := FakeState.FAILED
                 mTrackPosition := p.mTrackPosition + timeToFail })
    else if timeToEnd ≤ t then
      if p.mRepeatCount < 0 ∨ p.mCompletedPlays + 1 < p.mRepeatCount then
        playLoop fuel
          { p with mCompletedPlays := p.mCompletedPlays + 1
                   mTrackPosition := p.mStart }
          (t - timeToEnd) (consumed + timeToEnd)
      else
        (FakeEvent.TRACK_DONE, consumed + timeToEnd,
          { p with mState := FakeState.DONE
                   mTrackPosition := p.mStart + p.mDuration
                   mCompletedPlays := p.mRepeatCount })
    else
      (FakeEvent.TIME_UPDATE, consumed + t,
        { p with mTrackPosition := p.mTrackPosition + t })

/-- Modelled from the spec (§4.3): the playback phase, reached only when
buffering is already drained and the state is `Playing`.  A track with a zero
effective playable window goes straight to `Done` with the play head at
`end` (= `start`), skipping `TIME_UPDATE` and looping entirely — unless the
failure threshold is reached at that same instant, in which case failure takes
precedence.  An infinite window never ends: the play head advances by the
budget (or up to the failure point). -/
def playback (p : FakePlayer) (t : Int) : FakeEvent × Int × FakePlayer :=
  if p.mDuration = 0 then
    if 0 ≤ p.mFailAfter ∧ p.mFailAfter - p.elapsedPlayback ≤ 0 then
      (FakeEvent.TRACK_FAIL, p.mFailAfter - p.elapsedPlayback,
        { p with mState := FakeState.FAILED
                 mTrackPosition :=
                   p.mTrackPosition + (p.mFailAfter - p.elapsedPlayback) })
    else
      (FakeEvent.TRACK_DONE, 0,
        { p with mState := FakeState.DONE, mTrackPosition := p.mStart })
  else if p.mDuration < 0 then
    if 0 ≤ p.mFailAfter ∧ p.mFailAfter - p.elapsedPlayback ≤ t then
      (FakeEvent.TRACK_FAIL, p.mFailAfter - p.elapsedPlayback,
        { p with mState := FakeState.FAILED
                 mTrackPosition :=
                   p.mTrackPosition + (p.mFailAfter - p.elapsedPlayback) })
    else
      (FakeEvent.TIME_UPDATE, t, { p with mTrackPosition := p.mTrackPosition + t })
  else
    playLoop (t.toNat + 2) p t 0

/-- Modelled from the spec (§4.3, §7, §9): `advanceTime` consumes up to
`maxTimeToAdvance` milliseconds in at most two phases, in strict order, and
returns the event that stopped consumption together with the simulated time
actually consumed and the new player.  A failed player is frozen (§7: failure
is absorbing).  Buffering drains first; when it reaches zero within the
budget and the ready notification is still pending, `TRACK_READY` is emitted
consuming only the drain time — leftover budget never carries into the
playback phase of the same call (§9 treats this boundary as authoritative).
The playback phase is reached only on a call where buffering was already
drained and the state is `Playing`. -/
def advanceTime (p : FakePlayer) (maxTimeToAdvance : Int) :
    FakeEvent × Int × FakePlayer :=
  if p.mState = FakeState.FAILED then
    (FakeEvent.NO_REPORT, 0, p)
  else if 0 < p.mBufferingTime then
    if p.mBufferingTime ≤ maxTimeToAdvance then
      if p.mReadyDispatched then
        (FakeEvent.NO_REPORT, p.mBufferingTime, { p with mBufferingTime := 0 })
      else
        (FakeEvent.TRACK_READY, p.mBufferingTime,
          { p with mBufferingTime := 0, mReadyDispatched := true })
    else
      (FakeEvent.NO_REPORT, maxTimeToAdvance,
        { p with mBufferingTime := p.mBufferingTime - maxTimeToAdvance })
  else if p.mState = FakeState.PLAYING then
    p.playback maxTimeToAdvance
  else
    (FakeEvent.NO_REPORT, 0, p)

/-- Drive a player through a list of `advanceTime` budgets, recording for each
call the event produced and the position reported by `getPosition` right
after the call. -/
def runAdvances : FakePlayer → List Int → List (FakeEvent × Int)
  | _, [] => []
  | p, t :: ts =>
    let r := p.advanceTime t
    (r.1, r.2.2.getPosition) :: runAdvances r.2.2 ts

end FakePlayer

/-- A control operation or time advance applied to a player (spec §4.2/§4.3):
the alphabet with which the caller drives the simulator. -/
inductive MediaOp where
  | play
  | pause
  | rewind
  | finish
  | clearRepeat
  | seek (offset : Int)
  | advance (t : Int)
deriving DecidableEq, Repr

/-- The observable result of one operation: a boolean transition report for a
control operation, or the (event, consumed time) pair of `advanceTime`. -/
inductive Outcome where
  | acted (b : Bool)
  | report (e : FakeEvent) (consumed : Int)
deriving DecidableEq, Repr

/-- One step of the driven simulator: relates a player, the operation applied
to it, the observable outcome and the successor player, one constructor per
operation of the interface. -/
inductive StepR : FakePlayer → MediaOp → Outcome → FakePlayer → Prop where
  | play (p : FakePlayer) :
      StepR p MediaOp.play (Outcome.acted p.play.1) p.play.2
  | pause (p : FakePlayer) :
      StepR p MediaOp.pause (Outcome.acted p.pause.1) p.pause.2
  | rewind (p : FakePlayer) :
      StepR p MediaOp.rewind (Outcome.acted p.rewind.1) p.rewind.2
  | finish (p : FakePlayer) :
      StepR p MediaOp.finish (Outcome.acted p.finish.1) p.finish.2
  | clearRepeat (p : FakePlayer) :
      StepR p MediaOp.clearRepeat (Outcome.acted p.clearRepeat.1) p.clearRepeat.2
  | seek (p : FakePlayer) (offset : Int) :
      StepR p (MediaOp.seek offset) (Outcome.acted (p.seek offset).1) (p.seek offset).2
  | advance (p : FakePlayer) (t : Int) :
      StepR p (MediaOp.advance t)
        (Outcome.report (p.advanceTime t).1 (p.advanceTime t).2.1)
        (p.advanceTime t).2.2

/-- A whole driven run: the player is taken through a list of operations,
producing the list of observable outcomes and the final player. -/
inductive RunR : FakePlayer → List MediaOp → List Outcome → FakePlayer → Prop where
  | nil (p : FakePlayer) : RunR p [] [] p
  | cons {p q r : FakePlayer} {op : MediaOp} {ops : List MediaOp}
      {o : Outcome} {os : List Outcome} :
      StepR p op o q → RunR q ops os r → RunR p (op :: ops) (o :: os) r

/-- Modelled from the spec (§6): a value storable in the environment
configuration store — number, string, boolean or structured value. -/
inductive EnvValue where
  | number (n : Int)
  | text (s : String)
  | boolean (b : Bool)
  | structured
deriving DecidableEq, Repr

/-- Modelled from the spec (§6) and the unit test: names an insertion may not
use — reserved top-level names, names synthesized by built-in features, and
names of the default environment/viewport. -/
def reservedEnvironmentNames : List String :=
  ["environment", "viewport", "rotated", "agentName", "width", "height", "theme"]

/-- Whether a key collides with a reserved or synthesized name. -/
def isReservedEnvironmentName (k : String) : Bool :=
  reservedEnvironmentNames.contains k

/-- Modelled from the spec (§6): `RootConfig::setEnvironmentValue` silently
rejects (a no-op, not a failure) any insertion whose key collides with a
reserved name; a non-colliding insertion is appended to the store. -/
def setEnvironmentValue (env : List (String × EnvValue)) (k : String)
    (v : EnvValue) : List (String × EnvValue) :=
  if isReservedEnvironmentName k then env else env ++ [(k, v)]

/-- Modelled from the spec (§6): lookup by exact key in the store. -/
def getEnvironmentValue (env : List (String × EnvValue)) (k : String) :
    Option EnvValue :=
  (env.find? (fun kv => kv.1 == k)).map (fun kv => kv.2)

/-- A sequence of insertions applied to the initially empty store. -/
def setEnvironmentValues (inserts : List (String × EnvValue)) :
    List (String × EnvValue) :=
  inserts.foldl (fun env kv => setEnvironmentValue env kv.1 kv.2) []

/-! Concrete players used by the witnesses, each produced by driving the
modelled interface from `create`. -/

/-- A zero-playable-window track (requested offset beyond the actual content
length), played, with its buffering fully drained by one advance. -/
def zeroWindowPlayed : FakePlayer :=
  (((FakePlayer.create 6000 1000 2 5000 100 (-1)).play).2.advanceTime 100).2.2

/-- A playing track that is still buffering (400 ms remaining). -/
def bufferingPlayer : FakePlayer :=
  ((FakePlayer.create 0 1000 2 5000 400 (-1)).play).2

/-- A playing track with window `[0,100]`, `repeatCount = 3` and
`failAfter = 200`: the failure threshold coincides with the second
end-of-window crossing, one transparent in-call loop ahead. -/
def loopTiePlayer : FakePlayer :=
  ((FakePlayer.create 0 100 3 5000 0 200).play).2

/-- A track driven into the `FAILED` state (`failAfter = 100` reached). -/
def failedPlayer : FakePlayer :=
  (((FakePlayer.create 0 1000 1 5000 0 100).play).2.advanceTime 500).2.2

/-- A playing track whose buffering just drained: play head at `start`, zero
completed loops. -/
def atStartPlaying : FakePlayer :=
  (((FakePlayer.create 0 1000 1 5000 100 (-1)).play).2.advanceTime 100).2.2

/-- A track driven to its natural end: `DONE` with the play head at `end`. -/
def donePlayer : FakePlayer :=
  (((FakePlayer.create 0 1000 1 5000 0 (-1)).play).2.advanceTime 1000).2.2

/-- A fresh idle track with no repeats, used to exercise `seek`. -/
def seekPlayer : FakePlayer :=
  FakePlayer.create 0 1000 0 5000 0 (-1)

/-- An artificial failed player carrying a nonzero buffering remainder, used
to show that `getTrackState` gives `FAILED` precedence over buffering. -/
def failedBufferingPlayer : FakePlayer :=
  { mRequestedDuration := 1000
    mRepeatCount := 1
    mFailAfter := 100
    mStart := 0
    mDuration := 1000
    mInitialDelay := 0
    mBufferingTime := 77
    mTrackPosition := 100
    mCompletedPlays := 0
    mState := FakeState.FAILED
    mReadyDispatched := true }

/-- The starting player of the determinism witness. -/
def detPlayer : FakePlayer :=
  FakePlayer.create 0 1000 2 5000 250 (-1)

/-- The operation sequence of the determinism witness. -/
def detOps : List MediaOp :=
  [MediaOp.play, MediaOp.advance 250, MediaOp.advance 250, MediaOp.pause]

/-- Apply one operation to a player, returning the observable outcome and the
successor player (the executable counterpart of `StepR`). -/
def stepOp (p : FakePlayer) : MediaOp → Outcome × FakePlayer
  | MediaOp.play => (Outcome.acted p.play.1, p.play.2)
  | MediaOp.pause => (Outcome.acted p.pause.1, p.pause.2)
  | MediaOp.rewind => (Outcome.acted p.rewind.1, p.rewind.2)
  | MediaOp.finish => (Outcome.acted p.finish.1, p.finish.2)
  | MediaOp.clearRepeat => (Outcome.acted p.clearRepeat.1, p.clearRepeat.2)
  | MediaOp.seek offset => (Outcome.acted (p.seek offset).1, (p.seek offset).2)
  | MediaOp.advance t =>
      (Outcome.report (p.advanceTime t).1 (p.advanceTime t).2.1,
        (p.advanceTime t).2.2)

/-- Apply a whole operation sequence, collecting the outcomes (the executable
counterpart of `RunR`). -/
def runOps : FakePlayer → List MediaOp → List Outcome × FakePlayer
  | p, [] => ([], p)
  | p, op :: ops =>
    let r := stepOp p op
    let rest := runOps r.2 ops
    (r.1 :: rest.1, rest.2)

/-- The final player of the determinism witness, written out field by field:
the witness identifies it with the player the run computes. -/
def detFinal : FakePlayer :=
  { mRequestedDuration := 1000
    mRepeatCount := 2
    mFailAfter := -1
    mStart := 0
    mDuration := 1000
    mInitialDelay := 250
    mBufferingTime := 0
    mTrackPosition := 250
    mCompletedPlays := 0
    mState := FakeState.IDLE
    mReadyDispatched := true }

/-- The outcome trace of the determinism witness, written out literally. -/
def detTrace : List Outcome :=
  [Outcome.acted true, Outcome.report FakeEvent.TRACK_READY 250,
   Outcome.report FakeEvent.TIME_UPDATE 250, Outcome.acted true]

/-- The insertion sequence of the environment-store witness, mirroring the
unit test: seven colliding names and two custom ones. -/
def envInserts : List (String × EnvValue) :=
  [("rotated", EnvValue.boolean true),
   ("environment", EnvValue.structured),
   ("viewport", EnvValue.structured),
   ("agentName", EnvValue.text "tests"),
   ("width", EnvValue.number 42),
   ("height", EnvValue.number 42),
   ("theme", EnvValue.text "night"),
   ("number", EnvValue.number 42),
   ("string", EnvValue.text "all your base")]

end AplFake

namespace AplFake

open FakePlayer

/-! ## Claim theorems -/

/-- C2 counterexample: a zero-playable-window track with `failAfter = 0` is
constructed, played, and its buffering drained (`TRACK_READY`); the very next
`advanceTime` call returns `TRACK_FAIL` (the author-specified failure point
takes precedence over natural completion), not `TRACK_DONE` as the claim
states for every zero-duration track. -/
theorem c2_counterexample :
    ((((FakePlayer.create 6000 1000 2 5000 100 0).play).2.advanceTime 100).2.2.advanceTime
        50).1 = FakeEvent.TRACK_FAIL ∧
    ((((FakePlayer.create 6000 1000 2 5000 100 0).play).2.advanceTime 100).2.2.advanceTime
        50).1 ≠ FakeEvent.TRACK_DONE := by
  decide

/-- C2 (amended): for a track whose effective playable duration is zero whose
failure threshold does not trigger at that same instant (`failAfter ≠ 0`),
the first `advanceTime` call after buffering fully drains while in `Playing`
returns `TRACK_DONE` directly — never `TIME_UPDATE`, with no looping
(completed-loop count untouched) — consuming no time, and `getPosition()`
afterwards reports exactly `start` (which equals `end`). -/
theorem c2_zero_window_done (p : FakePlayer) (t : Int)
    (hs : p.mState = FakeState.PLAYING) (hb : p.mBufferingTime = 0)
    (hd : p.mDuration = 0) (hp : p.mTrackPosition = p.mStart)
    (hf : p.mFailAfter ≠ 0) :
    p.advanceTime t =
      (FakeEvent.TRACK_DONE, 0,
        { p with mState := FakeState.DONE, mTrackPosition := p.mStart }) := by
  have hel : p.elapsedPlayback = 0 := by
    simp [FakePlayer.elapsedPlayback, hd, hp]
  unfold FakePlayer.advanceTime
  rw [if_neg (by simp [hs]), if_neg (by omega), if_pos hs]
  unfold FakePlayer.playback
  rw [if_pos hd, if_neg ?_]
  rintro ⟨h1, h2⟩
  rw [hel] at h2
  omega

/-- Witness for C2 (amended): the zero-window track of the counterexample
scenario, but with a never-fail threshold, goes straight to `TRACK_DONE` with
the play head parked at `start = end = 5000` (the actual content length). -/
theorem c2_witness :
    zeroWindowPlayed.advanceTime 50 =
      (FakeEvent.TRACK_DONE, 0,
        { zeroWindowPlayed with mState := FakeState.DONE
                                mTrackPosition := zeroWindowPlayed.mStart }) :=
  c2_zero_window_done zeroWindowPlayed 50 (by decide) (by decide) (by decide)
    (by decide) (by decide)

/-- C3: on every `advanceTime(budget)` call of a non-failed player made while
the buffering remainder is positive: if the remainder is at most the budget
and the ready notification is still pending, the call returns `TRACK_READY`
consuming exactly the remainder (the play head and the rest of the state are
untouched, so no leftover budget is spent on playback in the same call); if
buffering does not fully drain within the budget, the call returns
`NO_REPORT` consuming the entire budget.  (A failed player is excluded: the
absorbing `FAILED` state freezes it, and no reachable failed player carries a
buffering remainder.) -/
theorem c3_buffering_phase (p : FakePlayer) (t : Int)
    (hs : p.mState ≠ FakeState.FAILED) (hb : 0 < p.mBufferingTime) :
    (p.mBufferingTime ≤ t → p.mReadyDispatched = false →
      p.advanceTime t =
        (FakeEvent.TRACK_READY, p.mBufferingTime,
          { p with mBufferingTime := 0, mReadyDispatched := true })) ∧
    (t < p.mBufferingTime →
      p.advanceTime t =
        (FakeEvent.NO_REPORT, t,
          { p with mBufferingTime := p.mBufferingTime - t })) := by
  unfold FakePlayer.advanceTime
  rw [if_neg hs, if_pos hb]
  constructor
  · intro h1 h2
    rw [if_pos h1, h2]
    simp
  · intro h1
    rw [if_neg (by omega)]

/-- Witness for C3: a player with 400 ms of buffering left and a 1000 ms
budget reports `TRACK_READY` after consuming exactly 400 ms. -/
theorem c3_witness :
    bufferingPlayer.advanceTime 1000 =
      (FakeEvent.TRACK_READY, bufferingPlayer.mBufferingTime,
        { bufferingPlayer with mBufferingTime := 0, mReadyDispatched := true }) :=
  (c3_buffering_phase bufferingPlayer 1000 (by decide) (by decide)).1
    (by decide) (by decide)

/-- C4 counterexample: a track with `failAfter = 0` — so the failure
threshold is reached at the very instant buffering completes — still returns
`TRACK_READY` on the call that drains buffering (leftover budget never
carries into the playback phase of the same call), not `TRACK_FAIL` as the
claim states for failure coinciding with buffering completion. -/
theorem c4_counterexample :
    (((FakePlayer.create 0 1000 1 5000 100 0).play).2.advanceTime 200).1 =
        FakeEvent.TRACK_READY ∧
    (((FakePlayer.create 0 1000 1 5000 100 0).play).2.advanceTime 200).1 ≠
        FakeEvent.TRACK_FAIL := by
  decide

/-- For a finite window, the elapsed playback time is the completed loops
times the window length plus the progress into the current traversal. -/
theorem elapsedPlayback_eq (p : FakePlayer) (hd : 0 ≤ p.mDuration) :
    p.elapsedPlayback =
      p.mCompletedPlays * p.mDuration + (p.mTrackPosition - p.mStart) := by
  unfold FakePlayer.elapsedPlayback
  rw [if_pos hd]

/-- In the playback loop, when the failure threshold coincides with the
`(k+1)`-st end-of-window crossing ahead of the play head, the threshold is
within the budget, and every earlier crossing is an internal loop boundary
with repeats remaining, the loop fails exactly at that crossing: event
`TRACK_FAIL`, total consumption `failAfter` minus the elapsed playback, play
head frozen at `end`, and exactly `k` further loops completed. -/
theorem playLoop_fail_tie (k : Nat) :
    ∀ (fuel : Nat) (p : FakePlayer) (t consumed : Int),
      k + 1 ≤ fuel →
      0 ≤ p.mFailAfter → 0 < p.mDuration →
      p.mTrackPosition ≤ p.mStart + p.mDuration →
      p.mFailAfter = (p.mCompletedPlays + (k : Int) + 1) * p.mDuration →
      (∀ j : Nat, 1 ≤ j → j ≤ k →
        p.mRepeatCount < 0 ∨ p.mCompletedPlays + (j : Int) < p.mRepeatCount) →
      p.mFailAfter - p.elapsedPlayback ≤ t →
      FakePlayer.playLoop fuel p t consumed =
        (FakeEvent.TRACK_FAIL, consumed + (p.mFailAfter - p.elapsedPlayback),
          { p with mState := FakeState.FAILED
                   mTrackPosition := p.mStart + p.mDuration
                   mCompletedPlays := p.mCompletedPlays + (k : Int) }) := by
  induction k with
  | zero =>
      intro fuel p t consumed hfuel hf hd hpos htie hloops hin
      obtain ⟨m, rfl⟩ : ∃ m, fuel = m + 1 := ⟨fuel - 1, by omega⟩
      have hel := elapsedPlayback_eq p hd.le
      have htfte : p.mFailAfter - p.elapsedPlayback =
          p.mStart + p.mDuration - p.mTrackPosition := by
        rw [hel, htie]
        push_cast
        ring
      rw [FakePlayer.playLoop, if_pos ⟨hf, hin, le_of_eq htfte⟩, htfte]
      have h2 : p.mTrackPosition +
          (p.mStart + p.mDuration - p.mTrackPosition) =
          p.mStart + p.mDuration := by ring
      rw [h2]
      simp only [Nat.cast_zero, add_zero]
  | succ k ih =>
      intro fuel p t consumed hfuel hf hd hpos htie hloops hin
      obtain ⟨m, rfl⟩ : ∃ m, fuel = m + 1 := ⟨fuel - 1, by omega⟩
      have hel := elapsedPlayback_eq p hd.le
      have hM : (0 : Int) < ((k : Int) + 1) * p.mDuration :=
        mul_pos (by positivity) hd
      have htf : p.mFailAfter - p.elapsedPlayback =
          ((k : Int) + 1) * p.mDuration +
            (p.mStart + p.mDuration - p.mTrackPosition) := by
        rw [hel, htie]
        push_cast
        ring
      rw [FakePlayer.playLoop,
        if_neg (by rintro ⟨-, -, hle⟩; linarith),
        if_pos (show p.mStart + p.mDuration - p.mTrackPosition ≤ t by linarith),
        if_pos (by simpa using hloops 1 le_rfl (by omega))]
      have helq : ({ p with mCompletedPlays := p.mCompletedPlays + 1, mTrackPosition := p.mStart } : FakePlayer).elapsedPlayback =
          (p.mCompletedPlays + 1) * p.mDuration := by
        rw [elapsedPlayback_eq
          { p with mCompletedPlays := p.mCompletedPlays + 1, mTrackPosition := p.mStart }
          hd.le]
        simp
      refine (ih m
          { p with mCompletedPlays := p.mCompletedPlays + 1, mTrackPosition := p.mStart }
          (t - (p.mStart + p.mDuration - p.mTrackPosition))
          (consumed + (p.mStart + p.mDuration - p.mTrackPosition))
          (by omega) hf hd
          (show p.mStart ≤ p.mStart + p.mDuration by omega)
          (show p.mFailAfter =
            (p.mCompletedPlays + 1 + (k : Int) + 1) * p.mDuration by
            rw [htie]; push_cast; ring)
          ?_ ?_).trans ?_
      · intro j h1 h2
        show p.mRepeatCount < 0 ∨
          p.mCompletedPlays + 1 + (j : Int) < p.mRepeatCount
        rcases hloops (j + 1) (by omega) (by omega) with h | h
        · exact Or.inl h
        · right
          push_cast at h
          omega
      · show p.mFailAfter - ({ p with mCompletedPlays := p.mCompletedPlays + 1, mTrackPosition := p.mStart } : FakePlayer).elapsedPlayback ≤
            t - (p.mStart + p.mDuration - p.mTrackPosition)
        rw [helq]
        linarith [htf, hin]
      · rw [helq]
        dsimp only
        rw [hel]
        refine congrArg₂ Prod.mk rfl (congrArg₂ Prod.mk (by ring) ?_)
        have hc : p.mCompletedPlays + 1 + (k : Int) =
            p.mCompletedPlays + ((k + 1 : Nat) : Int) := by
          push_cast
          ring
        rw [hc]

/-- C4 (amended): for every `advanceTime` call in which a finite `failAfter`
threshold would be reached within the budget at the same simulated instant as
an end-of-window crossing — the `(k+1)`-st crossing ahead of the play head,
final or internal loop boundary alike, with repeats remaining at each of the
`k` earlier crossings — the returned event is `TRACK_FAIL`, the consumed
time equals `failAfter` minus the playback time elapsed before this call, the
state becomes `FAILED` (never `DONE`), and the play head and completed-loop
count are frozen at their values at the moment of failure: the play head at
`end` and exactly `k` further loops completed. -/
theorem c4_fail_tie (p : FakePlayer) (t : Int) (k : Nat)
    (hs : p.mState = FakeState.PLAYING) (hb : p.mBufferingTime = 0)
    (hd : 0 < p.mDuration) (hf : 0 ≤ p.mFailAfter)
    (hpos : p.mTrackPosition ≤ p.mStart + p.mDuration)
    (htie : p.mFailAfter = (p.mCompletedPlays + (k : Int) + 1) * p.mDuration)
    (hloops : ∀ j : Nat, 1 ≤ j → j ≤ k →
      p.mRepeatCount < 0 ∨ p.mCompletedPlays + (j : Int) < p.mRepeatCount)
    (hin : p.mFailAfter - p.elapsedPlayback ≤ t) :
    p.advanceTime t =
      (FakeEvent.TRACK_FAIL, p.mFailAfter - p.elapsedPlayback,
        { p with mState := FakeState.FAILED
                 mTrackPosition := p.mStart + p.mDuration
                 mCompletedPlays := p.mCompletedPlays + (k : Int) }) := by
  have hel := elapsedPlayback_eq p hd.le
  have hbound : (k : Int) ≤ t := by
    have h1 : (k : Int) * p.mDuration ≤ p.mFailAfter - p.elapsedPlayback := by
      rw [hel, htie]
      nlinarith [hpos]
    have h2 : (k : Int) ≤ (k : Int) * p.mDuration :=
      le_mul_of_one_le_right (by positivity) hd
    linarith
  unfold FakePlayer.advanceTime
  rw [if_neg (by simp [hs]), if_neg (by omega), if_pos hs]
  unfold FakePlayer.playback
  rw [if_neg (by omega), if_neg (by omega)]
  rw [playLoop_fail_tie k (t.toNat + 2) p t 0 (by omega) hf hd hpos htie hloops hin,
    zero_add]

/-- One driven step is deterministic: the same player and operation admit
exactly one outcome and one successor. -/
theorem stepR_deterministic {p : FakePlayer} {op : MediaOp} {o₁ o₂ : Outcome}
    {q₁ q₂ : FakePlayer} (h₁ : StepR p op o₁ q₁) (h₂ : StepR p op o₂ q₂) :
    o₁ = o₂ ∧ q₁ = q₂ := by
  cases h₁ <;> cases h₂ <;> exact ⟨rfl, rfl⟩

/-- The executable runner realises the run relation. -/
theorem runOps_sound (p : FakePlayer) (ops : List MediaOp) :
    RunR p ops (runOps p ops).1 (runOps p ops).2 := by
  induction ops generalizing p with
  | nil => exact RunR.nil p
  | cons op rest ih =>
      refine RunR.cons ?_ (ih (stepOp p op).2)
      cases op with
      | play => exact StepR.play p
      | pause => exact StepR.pause p
      | rewind => exact StepR.rewind p
      | finish => exact StepR.finish p
      | clearRepeat => exact StepR.clearRepeat p
      | seek offset => exact StepR.seek p offset
      | advance t => exact StepR.advance p t

/-- C8: the player is deterministic: two runs that start from the same player
and apply the identical sequence of control operations and `advanceTime`
budgets produce identical outcome traces (transition reports and
(event, consumed-time) pairs) and identical final players (position,
completed loops, lifecycle state, buffering remainder). -/
theorem c8_deterministic {p : FakePlayer} {ops : List MediaOp}
    {os₁ os₂ : List Outcome} {q₁ q₂ : FakePlayer}
    (h₁ : RunR p ops os₁ q₁) (h₂ : RunR p ops os₂ q₂) :
    os₁ = os₂ ∧ q₁ = q₂ := by
  induction h₁ generalizing os₂ q₂ with
  | nil _ =>
      cases h₂
      exact ⟨rfl, rfl⟩
  | cons hstep hrun ih =>
      cases h₂ with
      | cons hstep' hrun' =>
          obtain ⟨ho, hq⟩ := stepR_deterministic hstep hstep'
          subst ho
          subst hq
          obtain ⟨ho2, hq2⟩ := ih hrun'
          exact ⟨by rw [ho2], hq2⟩

/-- Witness for C8: the run of `detPlayer` through
`play, advance 250, advance 250, pause` computed by the executable runner
coincides — by determinism — with the literal trace and final player of a
hand-built derivation. -/
theorem c8_witness :
    (runOps detPlayer detOps).1 = detTrace ∧
    (runOps detPlayer detOps).2 = detFinal := by
  have hlit : RunR detPlayer detOps detTrace detFinal := by
    refine RunR.cons (StepR.play detPlayer) ?_
    refine RunR.cons (StepR.advance _ 250) ?_
    refine RunR.cons (StepR.advance _ 250) ?_
    exact RunR.cons (StepR.pause _) (RunR.nil _)
  exact c8_deterministic (runOps_sound detPlayer detOps) hlit

/-- C6 counterexample: a playing track whose buffering just drained — play
head still at `start`, zero completed loops — is a `Playing` track with
nonzero playable duration, yet `rewind()` returns `false` (nothing to
change), not `true` as the claim states for every such track. -/
theorem c6_counterexample :
    atStartPlaying.mState = FakeState.PLAYING ∧
    atStartPlaying.rewind.1 = false := by
  decide

/-- C6 (amended): `rewind()` on a `Done` track whose effective playable
duration is zero returns `false` and changes nothing; on any other `Done` or
`Playing` track it resets the play head to `start`, `completedLoops` to 0,
clears the buffering remainder and sets the state to `Idle`, returning `true`
exactly when the track was not already at the start with zero completed
loops. -/
theorem c6_rewind (p : FakePlayer)
    (h : p.mState = FakeState.DONE ∨ p.mState = FakeState.PLAYING) :
    (p.mDuration = 0 ∧ p.mState = FakeState.DONE → p.rewind = (false, p)) ∧
    (¬(p.mDuration = 0 ∧ p.mState = FakeState.DONE) →
      p.rewind.2 =
        { p with mTrackPosition := p.mStart
                 mCompletedPlays := 0
                 mBufferingTime := 0
                 mState := FakeState.IDLE } ∧
      (p.rewind.1 = true ↔
        ¬(p.mTrackPosition = p.mStart ∧ p.mCompletedPlays = 0))) := by
  have hnf : p.mState ≠ FakeState.FAILED := by
    rcases h with h | h <;> simp [h]
  unfold FakePlayer.rewind
  rw [if_neg hnf]
  constructor
  · intro hz
    rw [if_pos hz]
  · intro hz
    rw [if_neg hz]
    refine ⟨rfl, ?_⟩
    simp only [decide_eq_true_eq]

/-- Witness for C6 (amended): a track driven to its natural end (`Done`, play
head at 1000) rewinds: it returns `true` and the state becomes `Idle`. -/
theorem c6_witness :
    donePlayer.rewind.1 = true ∧
    donePlayer.rewind.2.mState = FakeState.IDLE := by
  have h := (c6_rewind donePlayer (by decide)).2 (by decide)
  exact ⟨h.2.mpr (by decide), by rw [h.1]⟩

/-- C7: for a non-failed track with finite `end`, `seek(offset)` sets the
play head to `start + offset` clipped to `[start, end]` and returns `true`
exactly when the play head position changed; if the resulting position equals
`end` and no further repeats remain the state becomes `Done`, and if the
track was `Done` and the resulting position is strictly before `end` the
state reverts to `Idle`. -/
theorem c7_seek (p : FakePlayer) (offset : Int)
    (hs : p.mState ≠ FakeState.FAILED) (hd : 0 ≤ p.mDuration) :
    (p.seek offset).2.mTrackPosition =
      min (p.mStart + p.mDuration) (max p.mStart (p.mStart + offset)) ∧
    ((p.seek offset).1 = true ↔
      min (p.mStart + p.mDuration) (max p.mStart (p.mStart + offset)) ≠
        p.mTrackPosition) ∧
    (min (p.mStart + p.mDuration) (max p.mStart (p.mStart + offset)) =
        p.mStart + p.mDuration →
      0 ≤ p.mRepeatCount → p.mRepeatCount ≤ p.mCompletedPlays + 1 →
      (p.seek offset).2.mState = FakeState.DONE) ∧
    (p.mState = FakeState.DONE →
      min (p.mStart + p.mDuration) (max p.mStart (p.mStart + offset)) <
        p.mStart + p.mDuration →
      (p.seek offset).2.mState = FakeState.IDLE) := by
  have hc : ¬ p.mDuration < 0 := not_lt.2 hd
  unfold FakePlayer.seek FakePlayer.clipPosition FakePlayer.noRepeatsRemain
  rw [if_neg hs, if_neg hc]
  refine ⟨rfl, by simp, ?_, ?_⟩
  · intro hend h1 h2
    simp only
    rw [if_pos ⟨hd, hend, h1, h2⟩]
  · intro hdone hlt
    simp only
    rw [if_neg (by rintro ⟨-, he, -⟩; omega), if_pos ⟨hdone, by rw [if_pos hd]; exact hlt⟩]

/-- Witness for C7: on a fresh idle track with window `[0,1000]` and no
repeats, `seek(1500)` clips to the end and sets the state to `Done`. -/
theorem c7_witness :
    (seekPlayer.seek 1500).2.mTrackPosition = 1000 ∧
    (seekPlayer.seek 1500).2.mState = FakeState.DONE := by
  have h := c7_seek seekPlayer 1500 (by decide) (by decide)
  exact ⟨h.1.trans (by decide), h.2.2.1 (by decide) (by decide) (by decide)⟩

/-- Folding insertions over any store appends exactly the non-colliding
entries, in order. -/
theorem setEnvironmentValues_go (inserts : List (String × EnvValue))
    (env : List (String × EnvValue)) :
    inserts.foldl (fun e kv => setEnvironmentValue e kv.1 kv.2) env =
      env ++ inserts.filter (fun kv => !isReservedEnvironmentName kv.1) := by
  induction inserts generalizing env with
  | nil => simp
  | cons kv rest ih =>
      rw [List.foldl_cons, ih, List.filter_cons]
      by_cases h : isReservedEnvironmentName kv.1
      · rw [setEnvironmentValue, if_pos h]
        simp [h]
      · rw [setEnvironmentValue, if_neg h]
        simp [h]

/-- In a store with pairwise-distinct keys, lookup of a stored key finds its
entry. -/
theorem find?_key_unique (l : List (String × EnvValue)) (k : String)
    (v : EnvValue) (hnd : (l.map Prod.fst).Nodup) (hmem : (k, v) ∈ l) :
    l.find? (fun kv => kv.1 == k) = some (k, v) := by
  induction l with
  | nil => cases hmem
  | cons a rest ih =>
      rw [List.map_cons, List.nodup_cons] at hnd
      by_cases h : (a.1 == k) = true
      · have hk : a.1 = k := by simpa using h
        rcases List.mem_cons.1 hmem with heq | htail
        · rw [← heq]
          simp [List.find?]
        · exfalso
          exact hnd.1 (hk ▸ List.mem_map_of_mem Prod.fst htail)
      · have htail : (k, v) ∈ rest := by
          rcases List.mem_cons.1 hmem with heq | htail
          · exact absurd (by rw [← heq]; exact beq_self_eq_true k) h
          · exact htail
        rw [Bool.not_eq_true] at h
        simp [List.find?, h, ih hnd.2 htail]

/-- C9: for the environment-configuration store, starting from the empty
store, after any sequence of insertions with pairwise-distinct keys —
including ones whose key collides with a reserved top-level name or an
already-synthesized built-in name — exactly the non-colliding insertions are
retained; each non-colliding insertion is retrievable by its exact key with
its original value (and hence type), a colliding key retrieves nothing, and a
colliding insertion is a silent no-op that leaves any store unchanged (no
failure is reported). -/
theorem c9_env_store (inserts : List (String × EnvValue))
    (hnd : (inserts.map Prod.fst).Nodup) :
    setEnvironmentValues inserts =
      inserts.filter (fun kv => !isReservedEnvironmentName kv.1) ∧
    (∀ (env : List (String × EnvValue)) (k : String) (v : EnvValue),
      isReservedEnvironmentName k = true → setEnvironmentValue env k v = env) ∧
    (∀ (k : String) (v : EnvValue), (k, v) ∈ inserts →
      (isReservedEnvironmentName k = true →
        getEnvironmentValue (setEnvironmentValues inserts) k = none) ∧
      (isReservedEnvironmentName k = false →
        getEnvironmentValue (setEnvironmentValues inserts) k = some v)) := by
  have hstore : setEnvironmentValues inserts =
      inserts.filter (fun kv => !isReservedEnvironmentName kv.1) :=
    setEnvironmentValues_go inserts []
  refine ⟨hstore, ?_, ?_⟩
  · intro env k v hres
    unfold setEnvironmentValue
    rw [if_pos hres]
  · intro k v hmem
    constructor
    · intro hres
      unfold getEnvironmentValue
      rw [hstore, List.find?_eq_none.2 ?_]
      · rfl
      · intro kv hkv
        have hp := List.of_mem_filter hkv
        simp only [Bool.not_eq_true', decide_eq_true_eq] at hp ⊢
        intro hkk
        rw [beq_iff_eq] at hkk
        rw [hkk, hres] at hp
        cases hp
    · intro hres
      have hmemf : (k, v) ∈
          inserts.filter (fun kv => !isReservedEnvironmentName kv.1) :=
        List.mem_filter.2 ⟨hmem, by simp [hres]⟩
      have hndf : ((inserts.filter
          (fun kv => !isReservedEnvironmentName kv.1)).map Prod.fst).Nodup :=
        ((List.filter_sublist inserts).map Prod.fst).nodup hnd
      unfold getEnvironmentValue
      rw [hstore, find?_key_unique _ k v hndf hmemf]
      rfl

/-- Witness for C9: the insertion sequence of the unit test — seven colliding
names then two custom entries — leaves exactly the two custom entries, each
retrievable with its original value, while a colliding key retrieves
nothing. -/
theorem c9_witness :
    setEnvironmentValues envInserts =
      [("number", EnvValue.number 42), ("string", EnvValue.text "all your base")] ∧
    getEnvironmentValue (setEnvironmentValues envInserts) "number" =
      some (EnvValue.number 42) ∧
    getEnvironmentValue (setEnvironmentValues envInserts) "rotated" = none := by
  have h := c9_env_store envInserts (by decide)
  exact ⟨h.1.trans (by decide),
    (h.2.2 "number" (EnvValue.number 42) (by decide)).2 (by decide),
    (h.2.2 "rotated" (EnvValue.boolean true) (by decide)).1 (by decide)⟩

/-- Witness for C4 (amended): a freshly played track with window `[0,100]`,
`repeatCount = 3` and `failAfter = 200`, advanced with a 500 ms budget: the
failure threshold ties the second end-of-window crossing, one transparent
in-call loop ahead; the call fails, consuming exactly 200 ms, with the play
head frozen at `end = 100` and one completed loop. -/
theorem c4_witness :
    loopTiePlayer.advanceTime 500 =
      (FakeEvent.TRACK_FAIL, 200,
        { loopTiePlayer with mState := FakeState.FAILED
                             mTrackPosition := 100
                             mCompletedPlays := 1 }) := by
  have h := c4_fail_tie loopTiePlayer 500 1 (by decide) (by decide) (by decide)
    (by decide) (by decide) (by decide)
    (by
      intro j h1 h2
      right
      show (0 : Int) + (j : Int) < 3
      omega)
    (by decide)
  exact h.trans (by decide)

/-- C1: for a track with `start = 0`, `end = 1000`, finite `repeatCount = 2`,
started with `play()` and driven by successive `advanceTime(250)` calls, the
positions reported by `getPosition()` across successive calls are exactly
`0, 250, 500, 750, 0, 250, 500, 750, 1000`; the call producing `1000` returns
`TRACK_DONE`, and the internal loop boundary (the call whose resulting
position wraps back to `0`) emits a plain `TIME_UPDATE`, no event of its
own. -/
theorem c1_loop_position_trace :
    FakePlayer.runAdvances ((FakePlayer.create 0 1000 2 5000 250 (-1)).play).2
        [250, 250, 250, 250, 250, 250, 250, 250, 250] =
      [(FakeEvent.TRACK_READY, 0),
       (FakeEvent.TIME_UPDATE, 250),
       (FakeEvent.TIME_UPDATE, 500),
       (FakeEvent.TIME_UPDATE, 750),
       (FakeEvent.TIME_UPDATE, 0),
       (FakeEvent.TIME_UPDATE, 250),
       (FakeEvent.TIME_UPDATE, 500),
       (FakeEvent.TIME_UPDATE, 750),
       (FakeEvent.TRACK_DONE, 1000)] := by
  decide

/-- C10: `getTrackState` gives the `FAILED` flag precedence over buffering
(it returns `kTrackFailed` whenever the lifecycle state is `FAILED`, even
with a nonzero buffering remainder); otherwise it returns `kTrackReady`
exactly when the buffering remainder is zero, and `kTrackNotReady` in all
remaining cases. -/
theorem c10_getTrackState (p : FakePlayer) :
    (p.mState = FakeState.FAILED → p.getTrackState = TrackState.kTrackFailed) ∧
    (p.mState ≠ FakeState.FAILED →
      (p.getTrackState = TrackState.kTrackReady ↔ p.mBufferingTime = 0) ∧
      (p.mBufferingTime ≠ 0 → p.getTrackState = TrackState.kTrackNotReady)) := by
  unfold FakePlayer.getTrackState
  constructor
  · intro h
    simp [h]
  · intro h
    simp only [if_neg h]
    constructor
    · constructor
      · intro hr
        by_contra hb
        simp [if_neg hb] at hr
      · intro hb
        simp [hb]
    · intro hb
      simp [hb]

/-- Witness for C10: a failed player with a nonzero buffering remainder still
reports `kTrackFailed`. -/
theorem c10_witness :
    failedBufferingPlayer.getTrackState = TrackState.kTrackFailed :=
  (c10_getTrackState failedBufferingPlayer).1 rfl

/-- C5: the `FAILED` state is absorbing: every operation of the interface —
`play`, `pause`, `rewind`, `seek`, `finish`, `clearRepeat`, `advanceTime` —
leaves a failed player entirely unchanged (lifecycle state, play head,
completed-loop count and buffering remainder included) and reports no
transition; in particular `finish()` returns `false` and the state stays
`FAILED`. -/
theorem c5_failed_absorbing (p : FakePlayer) (h : p.mState = FakeState.FAILED) :
    p.play = (false, p) ∧
    p.pause = (false, p) ∧
    p.rewind = (false, p) ∧
    p.finish = (false, p) ∧
    p.clearRepeat = (false, p) ∧
    (∀ offset : Int, p.seek offset = (false, p)) ∧
    (∀ t : Int, p.advanceTime t = (FakeEvent.NO_REPORT, 0, p)) := by
  refine ⟨?_, ?_, ?_, ?_, ?_, ?_, ?_⟩ <;>
    simp [FakePlayer.play, FakePlayer.pause, FakePlayer.rewind,
      FakePlayer.finish, FakePlayer.clearRepeat, FakePlayer.seek,
      FakePlayer.advanceTime, h]

/-- Witness for C5: on a concrete failed player, `finish()` returns `false`
and leaves the player unchanged, and `advanceTime` consumes nothing and
changes nothing. -/
theorem c5_witness :
    failedPlayer.finish = (false, failedPlayer) ∧
    failedPlayer.advanceTime 300 = (FakeEvent.NO_REPORT, 0, failedPlayer) :=
  ⟨(c5_failed_absorbing failedPlayer (by decide)).2.2.2.1,
   (c5_failed_absorbing failedPlayer (by decide)).2.2.2.2.2.2 300⟩

end AplFake
